import Mathlib

/-!
Verification of the per-channel upload rate limiter and its HTTP gate in the
random-talk uploader service. The token-bucket core lives behind the
`common.RateLimiter` interface; its algorithm is modelled from the spec
(section 4.1) since only its caller `pkg/uploader/http.go` is in scope.
The middleware, constructor and route registration are embedded from
`pkg/uploader/http.go`.
-/

/-- Bucket state persisted per key in the shared store: available token
credits and the timestamp of the last refill.  Token counts and times are
modelled as exact rationals. -/
structure BucketState where
  tokens : ℚ
  lastRefill : ℚ
deriving DecidableEq, Repr

/-- Modelled from the spec: the token bucket `evaluate(state_or_absent, now,
rps, burst)` operation of section 4.1 (the body of `common.RateLimiter`'s
atomic store script is not under src/).  If no prior state, initialize
`tokens = burst, last_refill = now`; compute elapsed seconds since
`last_refill`, clamped to zero when negative; refill
`tokens = min(burst, tokens + elapsed * rps)`; if the refilled tokens are at
least 1, decrement by 1 and allow, otherwise deny with tokens unchanged; set
`last_refill = now` regardless of outcome. -/
def evaluate (prior : Option BucketState) (now rps burst : ℚ) : Bool × BucketState :=
  let st := prior.getD ⟨burst, now⟩
  let elapsed := max 0 (now - st.lastRefill)
  let refilled := min burst (st.tokens + elapsed * rps)
  if 1 ≤ refilled then (true, ⟨refilled - 1, now⟩)
  else (false, ⟨refilled, now⟩)

/-- Modelled from the spec: a sequence of `Allow` calls against one key, all
issued at the same instant `now`; each call reads the prior stored state,
evaluates the bucket, and persists the new state for the next call.  Returns
the list of admission decisions together with the final stored state. -/
def runCalls : Nat → Option BucketState → ℚ → ℚ → ℚ → List Bool × BucketState
  | 0, _, now, _, burst => ([], ⟨burst, now⟩)
  | n + 1, st, now, rps, burst =>
    let step := evaluate st now rps burst
    let rest := runCalls n (some step.2) now rps burst
    (step.1 :: rest.1, rest.2)

/-- Modelled from the spec: the sequence of bucket states stored by
successive `Allow` calls for one key at the given call times, starting from
the given prior entry (`none` for a key never seen). -/
def storedStates : List ℚ → Option BucketState → ℚ → ℚ → List BucketState
  | [], _, _, _ => []
  | t :: rest, st, rps, burst =>
    let st' := (evaluate st t rps burst).2
    st' :: storedStates rest (some st') rps burst

/-- The stored-state invariant of the data model: token counts stay between
zero and the configured burst capacity. -/
def bucketInv (burst : ℚ) (s : BucketState) : Prop :=
  0 ≤ s.tokens ∧ s.tokens ≤ burst

/-- Decimal digit characters of a natural number, accumulator style: the
semantics of Go's `strconv.FormatUint(u, 10)` (repeatedly divide by 10,
emitting digit characters from the least significant end). -/
def formatUintAux (n : Nat) (acc : List Char) : List Char :=
  let d := Char.ofNat (48 + n % 10)
  if n < 10 then d :: acc
  else formatUintAux (n / 10) (d :: acc)
termination_by n
decreasing_by exact Nat.div_lt_self (by omega) (by norm_num)

/-- `strconv.FormatUint(u, 10)`: the base-10 string for an unsigned
integer. -/
def formatUint10 (n : Nat) : String :=
  String.mk (formatUintAux n [])

/-- Outcome of a gin middleware invocation: either the request is aborted
with an HTTP status, or control passes to the next handler. -/
inductive GinOutcome
  | abort (status : Nat)
  | next
deriving DecidableEq, Repr

/-- The `ChannelUploadRateLimit` middleware of `pkg/uploader/http.go`
(lines 112-131).  Inputs: the channel ID found in the request context (when
the `common.ChannelKey` value is a `uint64`), and the behaviour of
`Allow` as a function from the key to the `(allow, err)` pair it returns.
Output: the transport outcome paired with the key `Allow` was invoked with
(`none` when the store was never accessed). -/
def channelUploadRateLimit (chanCtx : Option Nat)
    (allowFn : String → Bool × Option String) : GinOutcome × Option String :=
  match chanCtx with
  | none => (GinOutcome.abort 401, none)
  | some channelID =>
    let key := formatUint10 channelID
    match allowFn key with
    | (allow, err) =>
      match err with
      | some _ => (GinOutcome.abort 500, some key)
      | none =>
        if !allow then (GinOutcome.abort 429, some key)
        else (GinOutcome.next, some key)

/-- A fixed `Allow` behaviour standing in for an unreachable store: every
call fails with an error. -/
def failingAllow : String → Bool × Option String :=
  fun _ => (false, some "i/o timeout")

/-- An `Allow` behaviour with an exhausted bucket: deny without error. -/
def denyingAllow : String → Bool × Option String :=
  fun _ => (false, none)

/-- The `config.Uploader.RateLimit.ChannelUpload` section. -/
structure ChannelUploadConfig where
  rps : ℚ
  burst : ℤ
deriving DecidableEq, Repr

/-- The `config.Uploader.RateLimit` section. -/
structure RateLimitConfig where
  channelUpload : ChannelUploadConfig
deriving DecidableEq, Repr

/-- The `config.Uploader` section (rate-limit part). -/
structure UploaderConfig where
  rateLimit : RateLimitConfig
deriving DecidableEq, Repr

/-- The `config.Redis` section (expiration part). -/
structure RedisConfig where
  expirationHour : ℤ
deriving DecidableEq, Repr

/-- The configuration fields of `config.Config` read by
`NewChannelUploadRateLimiter`. -/
structure Config where
  uploader : UploaderConfig
  redis : RedisConfig
deriving DecidableEq, Repr

/-- The `common.RateLimiter` value: a store-client handle (identified by an
opaque tag) and the configuration triple.  The expiration is a Go
`time.Duration`, i.e. a count of nanoseconds. -/
structure RateLimiter where
  rc : Nat
  rps : ℚ
  burst : ℤ
  expiration : ℤ
deriving DecidableEq, Repr

/-- Go `time.Hour` in nanoseconds. -/
def timeHour : ℤ := 3600000000000

/-- Modelled from the spec: `common.NewRateLimiter` (its body is not under
src/) stores the handle and the `(rps, burst, ttl)` triple unchanged; per
spec section 6 these are fixed for the limiter's lifetime, and no
validation is described anywhere (section 9 leaves non-positive values an
open question). -/
def NewRateLimiter (rc : Nat) (rps : ℚ) (burst : ℤ) (expiration : ℤ) : RateLimiter :=
  ⟨rc, rps, burst, expiration⟩

/-- `NewChannelUploadRateLimiter` from `pkg/uploader/http.go` (lines
33-42): wires the Redis client and the configuration into
`common.NewRateLimiter`, with `ttl = config.Redis.ExpirationHour * time.Hour`. -/
def NewChannelUploadRateLimiter (rc : Nat) (config : Config) : RateLimiter :=
  NewRateLimiter rc
    config.uploader.rateLimit.channelUpload.rps
    config.uploader.rateLimit.channelUpload.burst
    (config.redis.expirationHour * timeHour)

/-- The middleware kinds attached to routes in `pkg/uploader/http.go`. -/
inductive Middleware
  | recovery
  | cors
  | logging
  | limitBodySize
  | promMetrics
  | jwtForwardAuth
  | channelUploadRateLimit
deriving DecidableEq, Repr

/-- A gin router group: accumulated base path and middleware chain. -/
structure RouterGroup where
  basePath : String
  handlers : List Middleware
deriving DecidableEq, Repr

/-- `gin.RouterGroup.Group`: extend the base path, inheriting the chain. -/
def RouterGroup.group (g : RouterGroup) (relativePath : String) : RouterGroup :=
  ⟨g.basePath ++ relativePath, g.handlers⟩

/-- `gin.RouterGroup.Use`: append a middleware to the chain. -/
def RouterGroup.use (g : RouterGroup) (m : Middleware) : RouterGroup :=
  ⟨g.basePath, g.handlers ++ [m]⟩

/-- A registered route: method, full path, and middleware chain in
execution order. -/
structure Route where
  method : String
  path : String
  chain : List Middleware
deriving DecidableEq, Repr

/-- `gin.RouterGroup.Handle` (POST/GET): register a route carrying the
group's accumulated chain. -/
def RouterGroup.handle (g : RouterGroup) (method relativePath : String) : Route :=
  ⟨method, g.basePath ++ relativePath, g.handlers⟩

/-- The engine-wide middlewares installed by `NewGinServer` (lines 59-73). -/
def baseMiddlewares : List Middleware :=
  [Middleware.recovery, Middleware.cors, Middleware.logging,
   Middleware.limitBodySize, Middleware.promMetrics]

/-- `RegisterRoutes` from `pkg/uploader/http.go` (lines 141-160): the
upload group gets JWT-forwarding auth then the rate limiter; the download
group gets JWT-forwarding auth only; the swagger route is registered when
`serveSwag` is set. -/
def registerRoutes (serveSwag : Bool) : List Route :=
  let uploaderGroup := RouterGroup.group ⟨"", baseMiddlewares⟩ "/api/uploader"
  let uploadGroup :=
    ((uploaderGroup.group "/upload").use Middleware.jwtForwardAuth).use
      Middleware.channelUploadRateLimit
  let downloadGroup := (uploaderGroup.group "/download").use Middleware.jwtForwardAuth
  [uploadGroup.handle "POST" "/files",
   uploadGroup.handle "GET" "/presigned",
   downloadGroup.handle "GET" "/presigned"]
  ++ (if serveSwag then [uploaderGroup.handle "GET" "/swagger/*any"] else [])

/-- Unfolding of one bucket evaluation when a prior state exists. -/
theorem evaluate_some (st : BucketState) (now rps burst : ℚ) :
    evaluate (some st) now rps burst =
      if 1 ≤ min burst (st.tokens + max 0 (now - st.lastRefill) * rps) then
        (true, ⟨min burst (st.tokens + max 0 (now - st.lastRefill) * rps) - 1, now⟩)
      else (false, ⟨min burst (st.tokens + max 0 (now - st.lastRefill) * rps), now⟩) := rfl

/-- A first call for an absent key behaves as a call on a fresh bucket with
`tokens = burst` and `last_refill = now`. -/
theorem evaluate_none (now rps burst : ℚ) :
    evaluate none now rps burst = evaluate (some ⟨burst, now⟩) now rps burst := rfl

/-- C1: for every prior bucket state and current time, `evaluate` refills
tokens to `min(burst, tokens + elapsed * rps)` with elapsed clamped at zero,
allows and decrements by one exactly when the refilled tokens reach 1,
otherwise denies leaving the refilled tokens unchanged, and always stamps
`last_refill = now` in the returned state. -/
theorem evaluate_spec (st : BucketState) (now rps burst : ℚ) :
    (evaluate (some st) now rps burst).2.lastRefill = now
    ∧ ((evaluate (some st) now rps burst).1 = true
        ↔ 1 ≤ min burst (st.tokens + max 0 (now - st.lastRefill) * rps))
    ∧ ((evaluate (some st) now rps burst).1 = true →
        (evaluate (some st) now rps burst).2.tokens
          = min burst (st.tokens + max 0 (now - st.lastRefill) * rps) - 1)
    ∧ ((evaluate (some st) now rps burst).1 = false →
        (evaluate (some st) now rps burst).2.tokens
          = min burst (st.tokens + max 0 (now - st.lastRefill) * rps)) := by
  rw [evaluate_some]
  split
  case isTrue h => simpa using h
  case isFalse h => simpa using h

/-- With zero elapsed time, a bucket holding exactly `j` whole tokens
(`j ≤ burst`) admits the next `j` calls and denies the following one. -/
theorem runCalls_exhaust (now rps burst : ℚ) (hb : 0 ≤ burst) :
    ∀ j : ℕ, (j : ℚ) ≤ burst →
      (runCalls (j + 1) (some ⟨(j : ℚ), now⟩) now rps burst).1
        = List.replicate j true ++ [false] := by
  intro j
  induction j with
  | zero =>
    intro _
    have hmin : min burst ((0 : ℚ) + max 0 (now - now) * rps) = 0 := by
      simp [hb]
    simp [runCalls, evaluate_some, hmin]
    norm_num
  | succ j ih =>
    intro hle
    have hj : (j : ℚ) ≤ burst := le_trans (by push_cast; linarith) hle
    have hmin : min burst (((j : ℕ) + 1 : ℚ) + max 0 (now - now) * rps)
        = ((j : ℕ) + 1 : ℚ) := by
      rw [sub_self, max_self, zero_mul, add_zero]
      exact min_eq_right (by push_cast at hle ⊢; linarith)
    have hone : (1 : ℚ) ≤ ((j : ℕ) + 1 : ℚ) := by linarith [Nat.cast_nonneg (α := ℚ) j]
    have hstep : evaluate (some ⟨((j : ℕ) + 1 : ℚ), now⟩) now rps burst
        = (true, ⟨(j : ℚ), now⟩) := by
      rw [evaluate_some]
      push_cast at hmin ⊢
      rw [hmin, if_pos (by linarith)]
      norm_num
    have : ((j : ℕ) + 1 + 1) = (j + 1) + 1 := rfl
    rw [show ((j : ℕ) + 1 : ℚ) = (((j + 1 : ℕ)) : ℚ) by push_cast; ring] at hstep
    show (runCalls ((j + 1) + 1) (some ⟨((j + 1 : ℕ) : ℚ), now⟩) now rps burst).1 = _
    rw [runCalls]
    simp only [hstep, ih hj]
    rfl

/-- C2: for a key with no prior stored state, `burst = B` and any refill
rate, `B + 1` calls issued at the same instant admit the first `B` and deny
the last: the fresh bucket is initialized with `tokens = burst` and drained
one token per admitted call. -/
theorem runCalls_fresh_burst (B : ℕ) (now rps : ℚ) :
    (runCalls (B + 1) none now rps (B : ℚ)).1 = List.replicate B true ++ [false] := by
  have hb : (0 : ℚ) ≤ (B : ℚ) := Nat.cast_nonneg B
  have hfirst : (runCalls (B + 1) none now rps (B : ℚ)).1
      = (runCalls (B + 1) (some ⟨(B : ℚ), now⟩) now rps (B : ℚ)).1 := by
    cases B with
    | zero => rfl
    | succ n => rfl
  rw [hfirst]
  exact runCalls_exhaust now rps (B : ℚ) hb B le_rfl

/-- One evaluation never stores a negative token count or one above the
burst capacity, as long as the configuration is non-negative and the prior
stored tokens (if any) are non-negative. -/
theorem evaluate_preserves_inv (prior : Option BucketState) (t rps burst : ℚ)
    (hr : 0 ≤ rps) (hb : 0 ≤ burst)
    (hp : ∀ s, prior = some s → 0 ≤ s.tokens) :
    bucketInv burst (evaluate prior t rps burst).2 := by
  have htok : 0 ≤ (prior.getD ⟨burst, t⟩).tokens := by
    cases prior with
    | none => exact hb
    | some s => exact hp s rfl
  have helapsed : 0 ≤ max 0 (t - (prior.getD ⟨burst, t⟩).lastRefill) := le_max_left 0 _
  have hrefill₀ : 0 ≤ min burst ((prior.getD ⟨burst, t⟩).tokens
      + max 0 (t - (prior.getD ⟨burst, t⟩).lastRefill) * rps) :=
    le_min hb (by positivity)
  have hrefill₁ : min burst ((prior.getD ⟨burst, t⟩).tokens
      + max 0 (t - (prior.getD ⟨burst, t⟩).lastRefill) * rps) ≤ burst := min_le_left _ _
  unfold evaluate bucketInv
  dsimp only
  split
  case isTrue h => exact ⟨by dsimp only; linarith, by dsimp only; linarith⟩
  case isFalse h => exact ⟨hrefill₀, hrefill₁⟩

/-- C3: starting from an absent entry, every state stored by a sequence of
`Allow` calls (at arbitrary call times) satisfies `0 ≤ tokens ≤ burst`,
given a non-negative configuration. -/
theorem storedStates_inv (ts : List ℚ) (rps burst : ℚ)
    (hr : 0 ≤ rps) (hb : 0 ≤ burst) :
    List.Forall (bucketInv burst) (storedStates ts none rps burst) := by
  suffices h : ∀ (ts : List ℚ) (prior : Option BucketState),
      (∀ s, prior = some s → 0 ≤ s.tokens) →
      List.Forall (bucketInv burst) (storedStates ts prior rps burst) from
    h ts none (by intro s hs; cases hs)
  intro ts
  induction ts with
  | nil => intro prior _; exact trivial
  | cons t rest ih =>
    intro prior hp
    have hstep := evaluate_preserves_inv prior t rps burst hr hb hp
    simp only [storedStates]
    refine (List.forall_cons _ _ _).mpr ⟨hstep, ih (some (evaluate prior t rps burst).2) ?_⟩
    intro s hs
    injection hs with hs
    exact hs ▸ hstep.1

/-- Concrete instance of the C3 invariant: two immediate calls with
`rps = 1`, `burst = 2` keep both stored token counts inside `[0, 2]`. -/
theorem storedStates_inv_witness :
    List.Forall (bucketInv 2) (storedStates [0, 0] none 1 2) :=
  storedStates_inv [0, 0] 1 2 (by norm_num) (by norm_num)

/-- The accumulator-style digit emitter strictly grows its accumulator. -/
theorem formatUintAux_length (n : Nat) :
    ∀ acc : List Char, acc.length < (formatUintAux n acc).length := by
  induction n using Nat.strong_induction_on with
  | _ n ih =>
    intro acc
    rw [formatUintAux]
    split
    · simp
    · exact lt_trans (by simp) (ih (n / 10) (Nat.div_lt_self (by omega) (by norm_num)) _)

/-- The decimal rendering of a natural number is never the empty string. -/
theorem formatUint10_ne_empty (n : Nat) : formatUint10 n ≠ "" := by
  intro h
  have hdata : formatUintAux n [] = [] := congrArg String.data h
  have hlen := formatUintAux_length n []
  rw [hdata] at hlen
  simp at hlen

/-- C5: when `Allow` reports an error, the middleware fails closed,
aborting with HTTP 500 — a status distinct from the rate-limit status 429 —
and never passes the request to the upload handler. -/
theorem rateLimit_fails_closed (cid : Nat) (allowFn : String → Bool × Option String)
    (herr : ((allowFn (formatUint10 cid)).2).isSome = true) :
    (channelUploadRateLimit (some cid) allowFn).1 = GinOutcome.abort 500
    ∧ (channelUploadRateLimit (some cid) allowFn).1 ≠ GinOutcome.abort 429
    ∧ (channelUploadRateLimit (some cid) allowFn).1 ≠ GinOutcome.next := by
  rcases hfn : allowFn (formatUint10 cid) with ⟨a, e⟩
  cases e with
  | none => rw [hfn] at herr; simp at herr
  | some msg => refine ⟨?_, ?_, ?_⟩ <;> simp [channelUploadRateLimit, hfn]

/-- Concrete instance of C5: an unreachable store makes the middleware
abort channel 7's request with HTTP 500. -/
theorem rateLimit_fails_closed_witness :
    (channelUploadRateLimit (some 7) failingAllow).1 = GinOutcome.abort 500
    ∧ (channelUploadRateLimit (some 7) failingAllow).1 ≠ GinOutcome.abort 429
    ∧ (channelUploadRateLimit (some 7) failingAllow).1 ≠ GinOutcome.next :=
  rateLimit_fails_closed 7 failingAllow rfl

/-- C6: with a valid channel ID, the request reaches the next handler
exactly when `Allow` returns `(true, nil)`; an error-free denial is mapped
to HTTP 429 Too Many Requests. -/
theorem rateLimit_admission (cid : Nat) (allowFn : String → Bool × Option String) :
    ((channelUploadRateLimit (some cid) allowFn).1 = GinOutcome.next
      ↔ allowFn (formatUint10 cid) = (true, none))
    ∧ (allowFn (formatUint10 cid) = (false, none) →
        (channelUploadRateLimit (some cid) allowFn).1 = GinOutcome.abort 429) := by
  rcases hfn : allowFn (formatUint10 cid) with ⟨a, e⟩
  cases e <;> cases a <;> simp [channelUploadRateLimit, hfn]

/-- Concrete instance of C6: an exhausted bucket for channel 5 yields HTTP
429 and no admission. -/
theorem rateLimit_admission_witness :
    (((channelUploadRateLimit (some 5) denyingAllow).1 = GinOutcome.next
      ↔ denyingAllow (formatUint10 5) = (true, none))
    ∧ (denyingAllow (formatUint10 5) = (false, none) →
        (channelUploadRateLimit (some 5) denyingAllow).1 = GinOutcome.abort 429)) :=
  rateLimit_admission 5 denyingAllow

/-- C7: the limiter is built from an explicitly passed store handle and the
configuration triple; the resulting value holds exactly the handle, the
`Uploader.RateLimit.ChannelUpload` rps and burst, and a ttl of
`Redis.ExpirationHour` hours (in nanoseconds).  The `RateLimiter` structure
is an immutable value in this embedding: no operation in the model takes it
and returns a modified copy. -/
theorem newChannelUploadRateLimiter_spec (rc : Nat) (config : Config) :
    (NewChannelUploadRateLimiter rc config).rc = rc
    ∧ (NewChannelUploadRateLimiter rc config).rps
        = config.uploader.rateLimit.channelUpload.rps
    ∧ (NewChannelUploadRateLimiter rc config).burst
        = config.uploader.rateLimit.channelUpload.burst
    ∧ (NewChannelUploadRateLimiter rc config).expiration
        = config.redis.expirationHour * timeHour :=
  ⟨rfl, rfl, rfl, rfl⟩

/-- A configuration with negative rps and burst. -/
def negativeConfig : Config :=
  ⟨⟨⟨⟨-1, -5⟩⟩⟩, ⟨24⟩⟩

/-- C8 counterexample: constructing the limiter with `rps = -1` and
`burst = -5` succeeds and stores the negative values unchanged — nothing in
the construction path rejects malformed configuration. -/
theorem newRateLimiter_accepts_negative :
    NewChannelUploadRateLimiter 0 negativeConfig = ⟨0, -1, -5, 86400000000000⟩ := by
  decide

/-- C8 amended: construction performs no validation at all; for every
configuration, including one with negative rps or burst, the limiter is
built successfully and carries the values through unchanged. -/
theorem newRateLimiter_passthrough (rc : Nat) (config : Config) :
    NewChannelUploadRateLimiter rc config
      = ⟨rc, config.uploader.rateLimit.channelUpload.rps,
          config.uploader.rateLimit.channelUpload.burst,
          config.redis.expirationHour * timeHour⟩ :=
  rfl

/-- C9: without a `uint64` channel ID in the request context the middleware
aborts with HTTP 401 and never touches the store; with one, `Allow` is
called with the base-10 rendering of the ID, which is never the empty
string, satisfying the limiter's non-empty-key precondition. -/
theorem rateLimit_key_discipline (cid : Nat) (allowFn : String → Bool × Option String) :
    channelUploadRateLimit none allowFn = (GinOutcome.abort 401, none)
    ∧ (channelUploadRateLimit (some cid) allowFn).2 = some (formatUint10 cid)
    ∧ formatUint10 cid ≠ "" := by
  refine ⟨rfl, ?_, formatUint10_ne_empty cid⟩
  rcases hfn : allowFn (formatUint10 cid) with ⟨a, e⟩
  cases e <;> cases a <;> simp [channelUploadRateLimit, hfn]

/-- C10: whether or not the swagger route is served, the rate limiter
guards exactly the two upload routes, where it runs after JWT-forwarding
auth, and the presigned-download route carries JWT-forwarding auth but no
rate limiter. -/
theorem registerRoutes_rateLimit_scope (serveSwag : Bool) :
    ((registerRoutes serveSwag).filter
        (fun r => r.chain.contains Middleware.channelUploadRateLimit))
      = [⟨"POST", "/api/uploader/upload/files",
           baseMiddlewares ++ [Middleware.jwtForwardAuth, Middleware.channelUploadRateLimit]⟩,
         ⟨"GET", "/api/uploader/upload/presigned",
           baseMiddlewares ++ [Middleware.jwtForwardAuth, Middleware.channelUploadRateLimit]⟩]
    ∧ ((registerRoutes serveSwag).filter
        (fun r => r.path == "/api/uploader/download/presigned"))
      = [⟨"GET", "/api/uploader/download/presigned",
           baseMiddlewares ++ [Middleware.jwtForwardAuth]⟩] := by
  cases serveSwag <;> exact ⟨by decide, by decide⟩
